import Mathlib

/-!
Verification of the page/B-tree/record decoding core of a Rust SQLite-file
reader.  Every definition below is a shallow embedding of the corresponding
Rust item (same name where possible); bytes are `Nat` values `< 256`,
machine integers are `Nat`/`Int` with explicit `% 2^64` where wrap-around
is possible, and Rust panics (slice out of range, unsigned-subtraction
underflow, `panic!`) are modelled as `Option.none`.
-/

/-- Checked unsigned subtraction: Rust `a - b` on `usize`/`u64` aborts
(debug overflow check) when `b > a`; `none` models that abort. -/
def checkedSub (a b : Nat) : Option Nat :=
  if b ≤ a then some (a - b) else none

/-- `u64` modulus. -/
def U64MOD : Nat := 2 ^ 64

/-- `usize::MAX` (64-bit target). -/
def usizeMAX : Nat := 2 ^ 64 - 1

/-! ## `src/varint.rs` — `VarInt` (the standalone codec) -/

namespace VarInt

/-- `VarInt::encode`: pushes `value & 0x7F` and shifts right by 7 while
`value > 0`; no continuation bits are set and no length cap is applied. -/
def encode (value : Nat) : List Nat :=
  if value = 0 then [] else (value % 128) :: encode (value / 128)
termination_by value
decreasing_by exact Nat.div_lt_self (Nat.pos_of_ne_zero (by assumption)) (by omega)

/-- `VarInt::decode`: folds `value = value * 128 + byte` (as `u64`, so mod
`2^64`) over the bytes, stopping as soon as `value & !0xFF == 0`,
i.e. as soon as the running value is below 256. -/
def decodeGo : List Nat → Nat → Nat
  | [], value => value
  | b :: rest, value =>
    let value := (value * 128 + b) % U64MOD
    if Nat.land value (U64MOD - 256) = 0 then value else decodeGo rest value

/-- `VarInt::decode` entry point (`value` starts at 0). -/
def decode (data : List Nat) : Nat := decodeGo data 0

end VarInt

/-! ## `src/btree_page/page.rs` — `Page` -/

/-- `Page`: an in-memory page buffer plus its file offset and 1-based
page number. -/
structure Page where
  data : List Nat
  offset : Nat
  page_number : Nat
deriving DecidableEq

namespace Page

/-- `Page::at` (renamed: `at` is a Lean keyword): `self.data[offset]`,
panicking (`none`) when out of range. -/
def byteAt (p : Page) (i : Nat) : Option Nat := p.data.get? i

/-- `Page::read_u8`. -/
def read_u8 (p : Page) (offset : Nat) : Option Nat := p.byteAt offset

/-- `Page::read_u16`: big-endian 2-byte read. -/
def read_u16 (p : Page) (offset : Nat) : Option Nat :=
  match p.byteAt offset, p.byteAt (offset + 1) with
  | some a, some b => some (a * 256 + b)
  | _, _ => none

/-- `Page::read_u32`: big-endian 4-byte read. -/
def read_u32 (p : Page) (offset : Nat) : Option Nat :=
  match p.byteAt offset, p.byteAt (offset + 1), p.byteAt (offset + 2),
      p.byteAt (offset + 3) with
  | some a, some b, some c, some d =>
    some (a * 2 ^ 24 + b * 2 ^ 16 + c * 2 ^ 8 + d)
  | _, _, _, _ => none

/-- `Page::read_bytes`: `self.data[offset..offset+size]`, panicking
(`none`) when the range exceeds the buffer. -/
def read_bytes (p : Page) (offset size : Nat) : Option (List Nat) :=
  if offset + size ≤ p.data.length then some ((p.data.drop offset).take size)
  else none

/-- Loop body of `Page::read_varint` (`for i in 0..9`).  The `i`-th byte
contributes its low 7 bits at shift `7*i` (so the FIRST byte is the LEAST
significant group); the 9th byte (`i == 8`) contributes all 8 bits.  The
first argument counts the remaining iterations (`9 - i`, structural so the
kernel can evaluate; the `i = 8` branch always returns, so it never runs
out).  All intermediate values fit in a `u64`, so no wrap-around is
modelled. -/
def readVarintGo (p : Page) (offset : Nat) :
    Nat → Nat → Nat → Nat → Option (Nat × Nat)
  | 0, _, _, _ => none
  | rem + 1, i, value, shift =>
    match p.byteAt (offset + i) with
    | none => none
    | some byte =>
      if i = 8 then some (Nat.lor value (byte <<< shift), i + 1)
      else
        let value := Nat.lor value ((byte % 128) <<< shift)
        if byte < 128 then some (value, i + 1)
        else readVarintGo p offset rem (i + 1) value (shift + 7)

/-- `Page::read_varint`: returns `(value, bytes_consumed)`. -/
def read_varint (p : Page) (offset : Nat) : Option (Nat × Nat) :=
  readVarintGo p offset 9 0 0 0

end Page

/-! ## `src/btree_page/schema_layer.rs` — `Value`, `Record` -/

/-- `Value`: the typed column values. `Float` keeps the 8 raw big-endian
bytes (IEEE-754 interpretation is not needed by any verified property) and
`Text` keeps the raw bytes (UTF-8 validation is not modelled; no verified
property depends on it). -/
inductive Value where
  | Null : Value
  | Integer (i : Int) : Value
  | Float (bytes : List Nat) : Value
  | Blob (bytes : List Nat) : Value
  | Text (bytes : List Nat) : Value
deriving DecidableEq

/-- Big-endian twos-complement reading of an unsigned `n < 2^bits`
(`iN::from_be_bytes`). -/
def twosComp (bits n : Nat) : Int :=
  if n < 2 ^ (bits - 1) then (n : Int) else (n : Int) - 2 ^ bits

/-- `Record`. -/
structure Record where
  values : List Value
deriving DecidableEq

namespace Record

/-- Loop of `Record::parse_varint`: big-endian 7-bit groups,
`value = (value << 7) | (byte & 0x7F)` on `usize` (mod `2^64`), stopping
on a clear continuation bit; exhausting the input is the
`Err("Invalid varint")` case (`none`).  No 9-byte cap is applied. -/
def parseVarintGo : List Nat → Nat → Nat → Option (Nat × Nat)
  | [], _, _ => none
  | b :: rest, value, length =>
    let value := Nat.lor ((value <<< 7) % U64MOD) (b % 128)
    if b < 128 then some (value, length + 1) else parseVarintGo rest value (length + 1)

/-- `Record::parse_varint`: returns `(value, length)`. -/
def parse_varint (data : List Nat) : Option (Nat × Nat) :=
  parseVarintGo data 0 0

/-- `Record::parse_value`: decode one value of the given serial type from
the front of `data`, returning the value and its content size.  Serial
type 1 is `data[0] as i64` (an unsigned byte, NOT sign-extended); types 3
and 5 are assembled by shifting `as i32`/`as i64` byte casts, which are
likewise non-negative; types 2, 4 and 6 use `iN::from_be_bytes` and are
properly sign-extended.  Out-of-range slice accesses panic (`none`);
unknown serial types are `Err` (`none`). -/
def parse_value (serial_type : Nat) (data : List Nat) : Option (Value × Nat) :=
  match serial_type with
  | 0 => some (.Null, 0)
  | 1 =>
    match data.get? 0 with
    | some b => some (.Integer (b : Int), 1)
    | none => none
  | 2 =>
    match data.get? 0, data.get? 1 with
    | some a, some b => some (.Integer (twosComp 16 (a * 256 + b)), 2)
    | _, _ => none
  | 3 =>
    match data.get? 0, data.get? 1, data.get? 2 with
    | some a, some b, some c =>
      some (.Integer ((a * 2 ^ 16 + b * 2 ^ 8 + c : Nat) : Int), 3)
    | _, _, _ => none
  | 4 =>
    match data.get? 0, data.get? 1, data.get? 2, data.get? 3 with
    | some a, some b, some c, some d =>
      some (.Integer (twosComp 32 (a * 2 ^ 24 + b * 2 ^ 16 + c * 2 ^ 8 + d)), 4)
    | _, _, _, _ => none
  | 5 =>
    match data.get? 0, data.get? 1, data.get? 2, data.get? 3, data.get? 4,
        data.get? 5 with
    | some a, some b, some c, some d, some e, some f =>
      some (.Integer ((a * 2 ^ 40 + b * 2 ^ 32 + c * 2 ^ 24 + d * 2 ^ 16
        + e * 2 ^ 8 + f : Nat) : Int), 6)
    | _, _, _, _, _, _ => none
  | 6 =>
    match data.get? 0, data.get? 1, data.get? 2, data.get? 3, data.get? 4,
        data.get? 5, data.get? 6, data.get? 7 with
    | some a, some b, some c, some d, some e, some f, some g, some h =>
      some (.Integer (twosComp 64 (a * 2 ^ 56 + b * 2 ^ 48 + c * 2 ^ 40
        + d * 2 ^ 32 + e * 2 ^ 24 + f * 2 ^ 16 + g * 2 ^ 8 + h)), 8)
    | _, _, _, _, _, _, _, _ => none
  | 7 =>
    if 8 ≤ data.length then some (.Float (data.take 8), 8) else none
  | 8 => some (.Integer 0, 0)
  | 9 => some (.Integer 1, 0)
  | n =>
    if 12 ≤ n ∧ n % 2 = 0 then
      let size := (n - 12) / 2
      if size ≤ data.length then some (.Blob (data.take size), size) else none
    else if 13 ≤ n ∧ n % 2 = 1 then
      let size := (n - 13) / 2
      if size ≤ data.length then some (.Text (data.take size), size) else none
    else none

/-- The `while offset < header_size` loop of `Record::parse`, collecting
serial types; `fuel` bounds the iteration count (each step consumes at
least one byte, so `fuel := header_size` always suffices). -/
def parseSerialTypes (data : List Nat) (header_size : Nat) :
    Nat → Nat → Option (List Nat × Nat)
  | 0, offset => if offset < header_size then none else some ([], offset)
  | fuel + 1, offset =>
    if offset < header_size then
      match parse_varint (data.drop offset) with
      | none => none
      | some (st, len) =>
        match parseSerialTypes data header_size fuel (offset + len) with
        | none => none
        | some (l, o) => some (st :: l, o)
    else some ([], offset)

/-- The value loop of `Record::parse`: decode one value per serial type,
advancing the offset by each content size. -/
def parseValues (data : List Nat) : List Nat → Nat → Option (List Value × Nat)
  | [], offset => some ([], offset)
  | st :: rest, offset =>
    match parse_value st (data.drop offset) with
    | none => none
    | some (v, len) =>
      match parseValues data rest (offset + len) with
      | none => none
      | some (l, o) => some (v :: l, o)

/-- `Record::parse`: leading varint = header size (including itself), then
serial types while inside the header, then one value per serial type. -/
def parse (data : List Nat) : Option Record :=
  match parse_varint data with
  | none => none
  | some (header_size, header_size_len) =>
    match parseSerialTypes data header_size header_size header_size_len with
    | none => none
    | some (serial_types, offset) =>
      match parseValues data serial_types offset with
      | none => none
      | some (values, _) => some ⟨values⟩

end Record

/-! ## `src/btree_page/mod.rs` — `Header`, `BTree` -/

/-- `Header`: decoded page header.  `Header::new` reads all six fields
unconditionally (including `read_u32(8)` on leaf pages, where those bytes
are cell-pointer data). -/
structure Header where
  page_type : Nat
  first_freeblock : Nat
  num_cells : Nat
  start_cell_content : Nat
  num_fragmented_free_bytes : Nat
  right_most_pointer : Nat
deriving DecidableEq

/-- `Header::new` (the debug `println!` is ignored). -/
def Header.new (page : Page) : Option Header :=
  match page.read_u8 0, page.read_u16 1, page.read_u16 3, page.read_u16 5,
      page.read_u8 7, page.read_u32 8 with
  | some a, some b, some c, some d, some e, some f => some ⟨a, b, c, d, e, f⟩
  | _, _, _, _, _, _ => none

/-! ## `src/btree_page/cell.rs` — `Cell` -/

/-- `Cell`: the four page-type-dependent cell shapes. -/
inductive Cell where
  | TableLeaf (payload_size : Nat) (row_id : Nat) (payload : List Nat)
      (overflow_page : Option Nat) : Cell
  | TableInterior (left_child_page : Nat) (row_id : Nat) : Cell
  | IndexLeaf (payload_size : Nat) (payload : List Nat)
      (overflow_page : Option Nat) : Cell
  | IndexInterior (left_child_page : Nat) (payload_size : Nat)
      (payload : List Nat) (overflow_page : Option Nat) : Cell
deriving DecidableEq

namespace Cell

/-- `Cell::payload`: local payload slice (empty for `TableInterior`). -/
def payload : Cell → List Nat
  | .TableLeaf _ _ pl _ => pl
  | .IndexLeaf _ pl _ => pl
  | .IndexInterior _ _ pl _ => pl
  | .TableInterior _ _ => []

/-- `Cell::read_payload`: local payload plus optional overflow page
number.  `remaining_space = page.data.len() - payload_offset` (underflow
aborts); if the declared size fits it is read locally with no overflow;
otherwise the last 4 bytes of the remaining space hold a big-endian
overflow page number, sanity-checked to `1..=1_000_000` (failures are
treated as "no overflow", leaving a truncated local payload). -/
def read_payload (page : Page) (payload_size payload_offset : Nat) :
    Option (List Nat × Option Nat) :=
  match checkedSub page.data.length payload_offset with
  | none => none
  | some remaining_space =>
    if payload_size ≤ remaining_space then
      match page.read_bytes payload_offset payload_size with
      | some pl => some (pl, none)
      | none => none
    else if remaining_space < 4 then
      some ([], none)
    else
      let local_payload_size := remaining_space - 4
      match page.read_bytes payload_offset local_payload_size with
      | none => none
      | some pl =>
        let overflow_offset := payload_offset + local_payload_size
        if page.data.length < overflow_offset + 4 then some (pl, none)
        else
          match page.read_u32 overflow_offset with
          | none => none
          | some overflow_page =>
            if overflow_page = 0 ∨ 1000000 < overflow_page then some (pl, none)
            else some (pl, some overflow_page)

/-- One iteration body of `Cell::new`: decode the cell at `cell_offset`
according to the page type; an unknown page type is a `panic!`. -/
def decodeOne (page : Page) (page_type cell_offset : Nat) : Option Cell :=
  if page_type = 13 then
    match page.read_varint cell_offset with
    | none => none
    | some (payload_size, l1) =>
      match page.read_varint (cell_offset + l1) with
      | none => none
      | some (row_id, l2) =>
        match read_payload page payload_size (cell_offset + l1 + l2) with
        | none => none
        | some (pl, ovf) => some (.TableLeaf payload_size row_id pl ovf)
  else if page_type = 5 then
    match page.read_u32 cell_offset, page.read_varint (cell_offset + 4) with
    | some left, some (rid, _) => some (.TableInterior left rid)
    | _, _ => none
  else if page_type = 10 then
    match page.read_varint cell_offset with
    | none => none
    | some (payload_size, l1) =>
      match read_payload page payload_size (cell_offset + l1) with
      | none => none
      | some (pl, ovf) => some (.IndexLeaf payload_size pl ovf)
  else if page_type = 2 then
    match page.read_u32 cell_offset with
    | none => none
    | some left =>
      match page.read_varint (cell_offset + 4) with
      | none => none
      | some (payload_size, l1) =>
        match read_payload page payload_size (cell_offset + 4 + l1) with
        | none => none
        | some (pl, ovf) => some (.IndexInterior left payload_size pl ovf)
  else none

/-- The `for i in 0..num_cells` loop of `Cell::new`: read the 2-byte cell
pointer at `8 + 2*i`, subtract 100 on page 1 (unsigned: underflow
aborts), decode one cell. -/
def newGo (page : Page) (page_type : Nat) : List Nat → Option (List Cell)
  | [] => some []
  | i :: rest =>
    match page.read_u16 (8 + i * 2) with
    | none => none
    | some v =>
      match checkedSub v (if page.page_number = 1 then 100 else 0) with
      | none => none
      | some cell_offset =>
        match decodeOne page page_type cell_offset with
        | none => none
        | some c =>
          match newGo page page_type rest with
          | none => none
          | some cs => some (c :: cs)

/-- `Cell::new`: decode all `header.num_cells` cells of a page. -/
def new (page : Page) (header : Header) : Option (List Cell) :=
  newGo page header.page_type (List.range header.num_cells)

end Cell

/-- `BTree`: a page with its decoded header and cells. -/
structure BTree where
  page : Page
  header : Header
  cells : List Cell
deriving DecidableEq

/-- `BTree::new`. -/
def BTree.new (page : Page) : Option BTree :=
  match Header.new page with
  | none => none
  | some header =>
    match Cell.new page header with
    | none => none
    | some cells => some ⟨page, header, cells⟩

/-! ## `src/lib.rs` — `SQLite` -/

/-- The `SQLite` session: the open file's bytes and the page size from the
database header (all the core reads from the header). -/
structure SQLite where
  file : List Nat
  page_size : Nat
deriving DecidableEq

namespace SQLite

/-- `Page::try_from_file` / `SQLite::load_page`: offset 100 for page 1,
else `(page_number - 1) * page_size` (page 0 underflows and aborts);
a short read is an I/O error (`none`). -/
def load_page (st : SQLite) (page_num : Nat) : Option Page :=
  match (if page_num = 1 then some 100
    else (checkedSub page_num 1).map (· * st.page_size)) with
  | none => none
  | some offset =>
    if offset + st.page_size ≤ st.file.length then
      some ⟨(st.file.drop offset).take st.page_size, offset, page_num⟩
    else none

/-- `SQLite::btree_from_page`. -/
def btree_from_page (st : SQLite) (page_num : Nat) : Option BTree :=
  match st.load_page page_num with
  | none => none
  | some page => BTree.new page

/-- The `while let Some(page_num) = current_overflow` loop of
`SQLite::get_full_payload`.  Each iteration loads the overflow page, takes
`min(remaining_size - 4, page_len - 4)` bytes of content (both
subtractions abort on underflow) and reads the next 4-byte pointer after
that content iff `remaining_size > data_size + 4`.  `fuel` bounds the
chain length (the Rust loop has no cap; exhaustion is `none`). -/
def overflowLoop (st : SQLite) (total_size : Nat) :
    Nat → List Nat → Option Nat → Option (List Nat)
  | _, full_payload, none => some full_payload
  | 0, _, some _ => none
  | fuel + 1, full_payload, some page_num =>
    match st.load_page page_num with
    | none => none
    | some opage =>
      match checkedSub total_size full_payload.length with
      | none => none
      | some remaining_size =>
        match checkedSub remaining_size 4, checkedSub opage.data.length 4 with
        | some r4, some p4 =>
          let data_size := min r4 p4
          match opage.read_bytes 0 data_size with
          | none => none
          | some chunk =>
            if data_size + 4 < remaining_size then
              match opage.read_u32 data_size with
              | none => none
              | some next =>
                overflowLoop st total_size fuel (full_payload ++ chunk) (some next)
            else overflowLoop st total_size fuel (full_payload ++ chunk) none
        | _, _ => none

/-- `SQLite::get_full_payload`: follows the overflow chain for
`TableLeaf` cells only; every other cell variant returns just its local
payload slice. -/
def get_full_payload (st : SQLite) (cell : Cell) (fuel : Nat) :
    Option (List Nat) :=
  match cell with
  | .TableLeaf payload_size _ payload overflow_page =>
    overflowLoop st payload_size fuel payload overflow_page
  | c => some c.payload

/-- `SQLite::record_from_cell`. -/
def record_from_cell (st : SQLite) (cell : Cell) (fuel : Nat) : Option Record :=
  match st.get_full_payload cell fuel with
  | none => none
  | some full_payload => Record.parse full_payload

/-- The interior-page accumulation loop of `SQLite::count_rows_in_btree`:
`total += count_rows_in_btree(left_child)?` over `TableInterior` cells
(other variants are skipped; the header's right-most pointer is never
consulted). -/
def countInterior (count : Nat → Option Nat) : Nat → List Cell → Option Nat
  | total, [] => some total
  | total, .TableInterior left _ :: rest =>
    match count left with
    | none => none
    | some n => countInterior count (total + n) rest
  | total, _ :: rest => countInterior count total rest

/-- `SQLite::count_rows_in_btree`: leaf pages (type 0x0D) contribute their
`TableLeaf` cell count; interior pages (type 0x05) sum the recursive count
over their `TableInterior` cells' left children; any other type is an
error.  `fuel` bounds the recursion depth (Rust recurses unboundedly). -/
def count_rows_in_btree (st : SQLite) : Nat → Nat → Option Nat
  | 0, _ => none
  | fuel + 1, page_num =>
    match st.btree_from_page page_num with
    | none => none
    | some btree =>
      if btree.header.page_type = 13 then
        some (btree.cells.countP fun c =>
          match c with
          | .TableLeaf _ _ _ _ => true
          | _ => false)
      else if btree.header.page_type = 5 then
        countInterior (fun p => count_rows_in_btree st fuel p) 0 btree.cells
      else none

end SQLite

/-! ## `src/lib.rs` — row projection (`SQLite::print_rows`) -/

/-- `Value`'s `Display` rendering as pushed into output rows.  `Null` and
`Integer` are rendered exactly as the Rust `Display` impl does; `Float`,
`Blob` and `Text` renderings are abstracted as placeholders (no verified
property inspects them). -/
def Value.display : Value → String
  | .Null => "NULL"
  | .Integer i => toString i
  | .Float _ => "<float>"
  | .Blob _ => "<blob>"
  | .Text _ => "<text>"

namespace SQLite

/-- The inner `for (name, pos) in column_positions` loop of
`SQLite::print_rows`, building one output row: `usize::MAX` marks the
rowid alias; a position below the record's value count is rendered from
`record.values[pos + 1]` (an out-of-range index aborts); any other
position pushes the `"NULL"` placeholder. -/
def buildRow (row_id : Nat) (values : List Value) :
    List (String × Nat) → Option (List String)
  | [] => some []
  | (_, pos) :: rest =>
    if pos = usizeMAX then
      match buildRow row_id values rest with
      | none => none
      | some r => some (toString row_id :: r)
    else if pos < values.length then
      match values.get? (pos + 1) with
      | none => none
      | some v =>
        match buildRow row_id values rest with
        | none => none
        | some r => some (v.display :: r)
    else
      match buildRow row_id values rest with
      | none => none
      | some r => some ("NULL" :: r)

/-- The `for cell in &btree.cells` loop of `SQLite::print_rows`: only
`TableLeaf` cells of the given page produce rows (no recursion into child
pages); every other cell variant is skipped. -/
def printRowsGo (st : SQLite) (column_positions : List (String × Nat))
    (fuel : Nat) : List Cell → Option (List (List String))
  | [] => some []
  | .TableLeaf ps rid pl ovf :: rest =>
    match st.record_from_cell (.TableLeaf ps rid pl ovf) fuel with
    | none => none
    | some record =>
      match buildRow rid record.values column_positions with
      | none => none
      | some row =>
        match printRowsGo st column_positions fuel rest with
        | none => none
        | some rows => some (row :: rows)
  | _ :: rest => printRowsGo st column_positions fuel rest

/-- `SQLite::print_rows`: emit one row per `TableLeaf` cell of the given
B-tree's own page (returned as a list of rows instead of printed). -/
def print_rows (st : SQLite) (btree : BTree)
    (column_positions : List (String × Nat)) (fuel : Nat) :
    Option (List (List String)) :=
  printRowsGo st column_positions fuel btree.cells

end SQLite

/-! ## Concrete artifacts used by the claim theorems -/

/-- Synthetic leaf page with 3 `TableLeaf` cells (page size 128; each cell
is a 1-byte `payload_size = 0` varint plus a 1-byte rowid varint). -/
def leafPage3 : List Nat :=
  [13,0,0,0,3,0,0,0] ++ [0,30,0,32,0,34] ++ List.replicate 16 0
    ++ [0,1,0,2,0,3] ++ List.replicate 92 0

/-- Synthetic leaf page with 4 `TableLeaf` cells. -/
def leafPage4 : List Nat :=
  [13,0,0,0,4,0,0,0] ++ [0,30,0,32,0,34,0,36] ++ List.replicate 14 0
    ++ [0,1,0,2,0,3,0,4] ++ List.replicate 90 0

/-- Synthetic leaf page with 5 `TableLeaf` cells. -/
def leafPage5 : List Nat :=
  [13,0,0,0,5,0,0,0] ++ [0,30,0,32,0,34,0,36,0,38] ++ List.replicate 12 0
    ++ [0,1,0,2,0,3,0,4,0,5] ++ List.replicate 88 0

/-- Synthetic interior root page: two `TableInterior` cells whose left
children are pages 3 and 4; the leaf page with 5 cells (page 5) plays the
right-most-child role of the claimed synthetic tree, but the traversal
code has no way to reach it (it never consults
`Header.right_most_pointer`). -/
def rootPageC2 : List Nat :=
  [5,0,0,0,2,0,0,0] ++ [0,30,0,37] ++ List.replicate 18 0
    ++ [0,0,0,3,1] ++ [0,0] ++ [0,0,0,4,2] ++ List.replicate 86 0

/-- The synthetic two-level B-tree database file: page 1 unused, page 2
the interior root, pages 3-5 the leaves with 3, 4 and 5 rows. -/
def fileC2 : List Nat :=
  List.replicate 128 0 ++ rootPageC2 ++ leafPage3 ++ leafPage4 ++ leafPage5

/-- Session over the synthetic two-level tree (page size 128). -/
def stC2 : SQLite := ⟨fileC2, 128⟩

/-- Overflow page used by the C3 witness instance: page 2 of `stW3`. -/
def pageW3 : Page := ⟨List.replicate 5000 7, 5000, 2⟩

/-- Witness session for the overflow-reassembly claim: a 10000-byte file
of page size 5000 whose page 2 serves as a single overflow page. -/
def stW3 : SQLite := ⟨List.replicate 10000 7, 5000⟩

/-! ## Helper lemmas -/

theorem checkedSub_eq_some {a b c : Nat} :
    checkedSub a b = some c ↔ b ≤ a ∧ c = a - b := by
  constructor
  · intro h
    unfold checkedSub at h
    split at h
    · exact ⟨by assumption, (Option.some.inj h).symm⟩
    · cases h
  · rintro ⟨h1, rfl⟩
    unfold checkedSub
    rw [if_pos h1]

theorem read_bytes_eq_some {p : Page} {off size : Nat} {l : List Nat} :
    p.read_bytes off size = some l ↔
      off + size ≤ p.data.length ∧ l = (p.data.drop off).take size := by
  constructor
  · intro h
    unfold Page.read_bytes at h
    split at h
    · exact ⟨by assumption, (Option.some.inj h).symm⟩
    · cases h
  · rintro ⟨h1, rfl⟩
    unfold Page.read_bytes
    rw [if_pos h1]

/-- Whatever overflow chain `overflowLoop` follows, a successful
reassembly that entered the chain returns exactly `total - 4` bytes: the
final chain page always reserves 4 bytes for a next-page pointer, so the
declared total is never reached. -/
theorem overflowLoop_some_length (st : SQLite) :
    ∀ (fuel total : Nat) (full : List Nat) (p : Nat) (out : List Nat),
      SQLite.overflowLoop st total fuel full (some p) = some out →
      out.length = total - 4 := by
  intro fuel
  induction fuel with
  | zero => intro total full p out h; cases h
  | succ n ih =>
    intro total full p out h
    rw [SQLite.overflowLoop] at h
    split at h
    · cases h
    · rename_i opage hload
      split at h
      · cases h
      · rename_i remaining hrem
        split at h
        · rename_i r4 p4 hr4 hp4
          dsimp only at h
          split at h
          · cases h
          · rename_i chunk hchunk
            obtain ⟨hrem1, hrem2⟩ := checkedSub_eq_some.mp hrem
            obtain ⟨hr41, hr42⟩ := checkedSub_eq_some.mp hr4
            obtain ⟨hp41, hp42⟩ := checkedSub_eq_some.mp hp4
            obtain ⟨hc1, hc2⟩ := read_bytes_eq_some.mp hchunk
            have hclen : chunk.length = min r4 p4 := by
              subst hc2
              simp [List.length_take, List.length_drop]
              omega
            split at h
            · split at h
              · cases h
              · exact ih total (full ++ chunk) _ out h
            · rename_i hstop
              rw [SQLite.overflowLoop] at h
              have : full ++ chunk = out := Option.some.inj h
              subst this
              simp [List.length_append]
              omega
        · cases h

/-- A one-page overflow chain with an empty local payload, computed
symbolically: the loop takes `total - 4` bytes from the single overflow
page and stops. -/
theorem overflow_single_page (st : SQLite) (pnum rid total : Nat) (opage : Page)
    (hload : st.load_page pnum = some opage)
    (hlen : opage.data.length = total) (htot : 4 ≤ total) :
    st.get_full_payload (.TableLeaf total rid [] (some pnum)) (0 + 1)
      = some ((opage.data.drop 0).take (total - 4)) := by
  show SQLite.overflowLoop st total (0 + 1) [] (some pnum) = _
  rw [SQLite.overflowLoop, hload]
  dsimp only
  rw [show checkedSub total (List.length ([] : List Nat)) = some total from by
    simp [checkedSub]]
  dsimp only
  rw [hlen]
  rw [show checkedSub total 4 = some (total - 4) from checkedSub_eq_some.mpr ⟨htot, rfl⟩]
  dsimp only
  rw [min_self]
  rw [show opage.read_bytes 0 (total - 4) = some ((opage.data.drop 0).take (total - 4)) from
    read_bytes_eq_some.mpr ⟨by omega, rfl⟩]
  dsimp only
  rw [if_neg (by omega : ¬ (total - 4 + 4 < total))]
  rw [SQLite.overflowLoop]
  rw [List.nil_append]

/-- `stW3`'s page 2, as loaded by the model. -/
theorem stW3_load_page : stW3.load_page 2 = some pageW3 := by
  unfold SQLite.load_page stW3 checkedSub pageW3
  norm_num [List.drop_replicate, List.take_replicate, -List.reduceReplicate]

/-- Concrete single-page overflow reassembly over `stW3`: the cell
declares 5000 payload bytes but 4996 come back. -/
theorem stW3_get_full_payload :
    SQLite.get_full_payload stW3 (.TableLeaf 5000 1 [] (some 2)) (0 + 1)
      = some ((pageW3.data.drop 0).take (5000 - 4)) :=
  overflow_single_page stW3 2 1 5000 pageW3 stW3_load_page
    (by simp [pageW3, -List.reduceReplicate]) (by norm_num)

/-! ## Claim theorems -/

/-- C1: the claimed VarInt round-trip (`decode(encode(v)) = v` for all
64-bit `v`, with `encode` capped at 9 minimal bytes) FAILS on the code:
at the failing input `v = 300`, `VarInt::decode (VarInt::encode 300)`
returns 44 (decode stops after the first byte whenever the running value
is below 256 and ignores continuation bits), and `encode (2^63)` emits
10 bytes, exceeding the claimed 9-byte cap. -/
theorem claim_C1_varint_roundtrip_failure :
    VarInt.decode (VarInt.encode 300) = 44 ∧
    (VarInt.encode (2 ^ 63)).length = 10 := by
  constructor
  · simp [VarInt.encode, VarInt.decode, VarInt.decodeGo, U64MOD]
    decide
  · simp [VarInt.encode]

set_option maxRecDepth 40000 in
/-- C2: on the synthetic two-level B-tree (interior root, page 2, with two
`TableInterior` cells pointing at leaf pages 3 and 4 holding 3 and 4 rows,
while leaf page 5 with 5 rows plays the right-most-child role),
`count_rows_in_btree` returns 7 = 3 + 4, not the claimed 12: the traversal
never consults the header's right-most pointer, so the right-most
subtree's rows are dropped. -/
theorem claim_C2_count_rows_drops_rightmost :
    SQLite.count_rows_in_btree stC2 10 2 = some 7 ∧
    SQLite.count_rows_in_btree stC2 10 3 = some 3 ∧
    SQLite.count_rows_in_btree stC2 10 4 = some 4 ∧
    SQLite.count_rows_in_btree stC2 10 5 = some 5 := by decide

/-- C3: overflow reassembly does NOT produce the declared payload size.
For every `TableLeaf` cell declaring `payload_size = 5000` whose overflow
chain is actually followed, a successful `get_full_payload` returns
exactly 4996 bytes — the loop reserves 4 pointer bytes even on the final
chain page, so the reassembled payload is always 4 bytes short of the
declared total. -/
theorem claim_C3_overflow_reassembly_truncates (st : SQLite)
    (rid p fuel : Nat) (pl out : List Nat)
    (h : st.get_full_payload (.TableLeaf 5000 rid pl (some p)) fuel = some out) :
    out.length = 4996 :=
  overflowLoop_some_length st fuel 5000 pl p out h

/-- C3 witness: a concrete single-page overflow chain (session `stW3`)
declaring 5000 payload bytes reassembles 4996 bytes. -/
theorem claim_C3_overflow_reassembly_truncates_witness :
    ((pageW3.data.drop 0).take (5000 - 4)).length = 4996 :=
  claim_C3_overflow_reassembly_truncates stW3 1 2 (0 + 1) []
    ((pageW3.data.drop 0).take (5000 - 4)) stW3_get_full_payload

/-- C4: row projection does NOT recurse into interior pages: `print_rows`
on a B-tree whose cells are `TableInterior` cells (the shape of every
table-interior root) emits no rows at all, contradicting the claim that
every `TableLeaf` cell reachable under the root yields an output row. -/
theorem claim_C4_projection_ignores_interior (st : SQLite) (page : Page)
    (hdr : Header) (a b c d : Nat) (cols : List (String × Nat)) (fuel : Nat) :
    st.print_rows ⟨page, hdr, [.TableInterior a b, .TableInterior c d]⟩ cols fuel
      = some [] := rfl

/-- C5: the two varint decoders used by the core disagree, and the one
used for all cell decoding is little-endian: `Page::read_varint` decodes
`[0x82, 0x2C]` to 5634 (first byte = least significant 7-bit group), not
the claimed big-endian 300, which only `Record::parse_varint` produces;
`[0x01]` decodes to 1 with 1 byte consumed in both. -/
theorem claim_C5_varint_endianness_mismatch :
    Page.read_varint ⟨[0x82, 0x2C], 0, 2⟩ 0 = some (5634, 2) ∧
    Record.parse_varint [0x82, 0x2C] = some (300, 2) ∧
    Page.read_varint ⟨[0x01], 0, 2⟩ 0 = some (1, 1) ∧
    Record.parse_varint [0x01] = some (1, 1) := by decide

/-- C6: integer serial types 1, 3 and 5 are NOT sign-extended by
`Record::parse_value`: a serial-type-1 byte `0x80` decodes to +128 (the
claim requires −128), and the high byte of types 3 and 5 likewise
contributes positively; only types 2, 4 and 6 are correctly
twos-complement decoded. -/
theorem claim_C6_serial_types_not_sign_extended :
    Record.parse_value 1 [0x80] = some (.Integer 128, 1) ∧
    Record.parse_value 3 [0xFF, 0, 0] = some (.Integer 16711680, 3) ∧
    Record.parse_value 5 [0xFF, 0, 0, 0, 0, 0] = some (.Integer (255 * 2 ^ 40), 6) ∧
    Record.parse_value 2 [0x80, 0] = some (.Integer (-32768), 2) ∧
    Record.parse_value 4 [0xFF, 0xFF, 0xFF, 0xFF] = some (.Integer (-1), 4) ∧
    Record.parse_value 6 [0x80, 0, 0, 0, 0, 0, 0, 0]
      = some (.Integer (-9223372036854775808), 8) := by decide

/-- C7 (amended): for every successfully decoded cell payload, an overflow
page number is present only if the declared payload size exceeds the
page's local capacity (and the pointer passed the 1..=1_000_000 sanity
check); when it is absent, EITHER the payload fit locally and the local
slice holds the full declared payload, OR the payload exceeded the local
capacity but the overflow pointer was rejected (or fewer than 4 bytes
remained), leaving a truncated local payload. -/
theorem claim_C7_cell_overflow_invariant_amended (page : Page)
    (ps off : Nat) (pl : List Nat) (ovf : Option Nat)
    (h : Cell.read_payload page ps off = some (pl, ovf)) :
    (∀ p, ovf = some p → page.data.length - off < ps ∧ 0 < p ∧ p ≤ 1000000) ∧
    (ovf = none → (ps ≤ page.data.length - off ∧ pl.length = ps) ∨
      (page.data.length - off < ps ∧ pl.length < ps)) := by
  unfold Cell.read_payload at h
  split at h
  · cases h
  · rename_i remaining hrem
    obtain ⟨hr1, hr2⟩ := checkedSub_eq_some.mp hrem
    split at h
    · rename_i hfit
      split at h
      · rename_i pl' hpl
        obtain ⟨hb1, hb2⟩ := read_bytes_eq_some.mp hpl
        obtain ⟨rfl, rfl⟩ : pl' = pl ∧ (none : Option Nat) = ovf := by
          have := Option.some.inj h
          exact ⟨congrArg Prod.fst this, congrArg Prod.snd this⟩
        constructor
        · intro p hp
          cases hp
        · intro _
          left
          constructor
          · omega
          · subst hb2
            simp [List.length_take, List.length_drop]
            omega
      · cases h
    · rename_i hbig
      split at h
      · rename_i hsmall
        obtain ⟨rfl, rfl⟩ : ([] : List Nat) = pl ∧ (none : Option Nat) = ovf := by
          have := Option.some.inj h
          exact ⟨congrArg Prod.fst this, congrArg Prod.snd this⟩
        constructor
        · intro p hp
          cases hp
        · intro _
          right
          constructor
          · omega
          · simp
            omega
      · rename_i hsmall
        dsimp only at h
        split at h
        · cases h
        · rename_i pl' hpl
          obtain ⟨hb1, hb2⟩ := read_bytes_eq_some.mp hpl
          have hplen : pl'.length = remaining - 4 := by
            subst hb2
            simp [List.length_take, List.length_drop]
            omega
          split at h
          · rename_i hdead
            obtain ⟨rfl, rfl⟩ : pl' = pl ∧ (none : Option Nat) = ovf := by
              have := Option.some.inj h
              exact ⟨congrArg Prod.fst this, congrArg Prod.snd this⟩
            constructor
            · intro p hp
              cases hp
            · intro _
              exact Or.inr ⟨by omega, by omega⟩
          · split at h
            · cases h
            · rename_i op hop
              split at h
              · rename_i hsane
                obtain ⟨rfl, rfl⟩ : pl' = pl ∧ (none : Option Nat) = ovf := by
                  have := Option.some.inj h
                  exact ⟨congrArg Prod.fst this, congrArg Prod.snd this⟩
                constructor
                · intro p hp
                  cases hp
                · intro _
                  exact Or.inr ⟨by omega, by omega⟩
              · rename_i hsane
                obtain ⟨rfl, rfl⟩ : pl' = pl ∧ (some op : Option Nat) = ovf := by
                  have := Option.some.inj h
                  exact ⟨congrArg Prod.fst this, congrArg Prod.snd this⟩
                constructor
                · intro p hp
                  obtain rfl : op = p := Option.some.inj hp
                  push_neg at hsane
                  exact ⟨by omega, by omega, by omega⟩
                · intro hn
                  cases hn

/-- C7 witness: a payload of declared size 3 on a 10-byte page at offset 0
decodes with no overflow page and a full 3-byte local payload. -/
theorem claim_C7_cell_overflow_invariant_amended_witness :
    (∀ p, (none : Option Nat) = some p →
      (⟨[9,9,9,0,0,0,0,0,0,0], 0, 2⟩ : Page).data.length - 0 < 3 ∧
        0 < p ∧ p ≤ 1000000) ∧
    ((none : Option Nat) = none →
      (3 ≤ (⟨[9,9,9,0,0,0,0,0,0,0], 0, 2⟩ : Page).data.length - 0 ∧
        ([9,9,9] : List Nat).length = 3) ∨
      ((⟨[9,9,9,0,0,0,0,0,0,0], 0, 2⟩ : Page).data.length - 0 < 3 ∧
        ([9,9,9] : List Nat).length < 3)) :=
  claim_C7_cell_overflow_invariant_amended ⟨[9,9,9,0,0,0,0,0,0,0], 0, 2⟩ 3 0
    [9,9,9] none (by decide)

/-- C7 counterexample: on a 10-byte page of zero bytes, a cell declaring
20 payload bytes exceeds the local capacity, the stored overflow pointer
is 0 (failing the sanity check), and `read_payload` records NO overflow
page while the local payload holds only 6 of the declared 20 bytes —
refuting "absence of an overflow page number implies the local slice
holds the full declared payload". -/
theorem claim_C7_cell_overflow_invariant_cex :
    Cell.read_payload ⟨List.replicate 10 0, 0, 2⟩ 20 0
      = some (List.replicate 6 0, none) ∧
    ¬ (List.replicate 6 (0 : Nat)).length = 20 := by decide

/-- C8: during row projection, a requested output column whose mapped
position (from the column map, not the rowid marker) is at or beyond the
decoded record's value count contributes the `"NULL"` placeholder to the
output row and cannot abort the row construction. -/
theorem claim_C8_null_placeholder (row_id : Nat) (values : List Value)
    (rest : List (String × Nat)) (name : String) (pos : Nat)
    (hmax : pos ≠ usizeMAX) (hlen : values.length ≤ pos) :
    SQLite.buildRow row_id values ((name, pos) :: rest) =
      (SQLite.buildRow row_id values rest).map (fun r => "NULL" :: r) := by
  rw [SQLite.buildRow]
  rw [if_neg hmax, if_neg (by omega : ¬ pos < values.length)]
  cases SQLite.buildRow row_id values rest <;> rfl

/-- C8 witness: requesting column position 0 against an empty record
yields the `"NULL"` placeholder. -/
theorem claim_C8_null_placeholder_witness :
    SQLite.buildRow 1 [] [("x", 0)] =
      (SQLite.buildRow 1 [] []).map (fun r => "NULL" :: r) :=
  claim_C8_null_placeholder 1 [] [] "x" 0 (by decide) (by decide)

/-- C9: `get_full_payload` follows the overflow chain only for
`TableLeaf` cells; an `IndexLeaf` or `IndexInterior` cell returns just its
locally stored payload prefix even when it carries an overflow page
number. -/
theorem claim_C9_index_cells_local_only (st : SQLite) (ps : Nat)
    (pl : List Nat) (p left fuel : Nat) :
    st.get_full_payload (.IndexLeaf ps pl (some p)) fuel = some pl ∧
    st.get_full_payload (.IndexInterior left ps pl (some p)) fuel = some pl :=
  ⟨rfl, rfl⟩

/-- C10 (amended): on page 1, each 2-byte cell-pointer value has 100
subtracted before use; a pointer value below 100 makes the whole cell
decoding abort (unsigned-subtraction underflow), not return a decode
error — while a value of at least 100 survives the subtraction, the
resulting offset may still lie beyond the page buffer and abort the
decode (see the counterexample). -/
theorem claim_C10_page1_pointer_underflow_aborts (data : List Nat)
    (off : Nat) (hdr : Header) (v : Nat)
    (h1 : 0 < hdr.num_cells)
    (h2 : Page.read_u16 ⟨data, off, 1⟩ 8 = some v) (h3 : v < 100) :
    Cell.new ⟨data, off, 1⟩ hdr = none := by
  unfold Cell.new
  obtain ⟨k, hk⟩ : ∃ k, hdr.num_cells = k + 1 := ⟨hdr.num_cells - 1, by omega⟩
  rw [hk, List.range_succ_eq_map]
  rw [Cell.newGo]
  rw [show 8 + 0 * 2 = 8 from rfl, h2]
  dsimp only
  rw [if_pos rfl]
  rw [show checkedSub v 100 = none from by unfold checkedSub; rw [if_neg (by omega)]]

/-- C10 witness: a page-1 page whose first cell pointer is 0 (< 100)
makes `Cell::new` abort. -/
theorem claim_C10_page1_pointer_underflow_aborts_witness :
    Cell.new ⟨List.replicate 12 0, 0, 1⟩ ⟨13, 0, 1, 0, 0, 0⟩ = none :=
  claim_C10_page1_pointer_underflow_aborts (List.replicate 12 0) 0
    ⟨13, 0, 1, 0, 0, 0⟩ 0 (by decide) (by decide) (by decide)

set_option maxRecDepth 10000 in
/-- C10 counterexample: a page-1 cell pointer of 65535 is at least 100,
yet decoding still aborts — the offset 65435 lies far beyond the 512-byte
page buffer — refuting "for every page-1 cell pointer with value at least
100 this indexing stays in bounds". -/
theorem claim_C10_page1_pointer_cex :
    Page.read_u16 ⟨[13,0,0,0,1,0,0,0,255,255] ++ List.replicate 502 0, 0, 1⟩ 8
      = some 65535 ∧
    100 ≤ 65535 ∧
    Cell.new ⟨[13,0,0,0,1,0,0,0,255,255] ++ List.replicate 502 0, 0, 1⟩
      ⟨13, 0, 1, 0, 0, 0⟩ = none := by decide
